import Mathlib

/-!
Shallow embedding of `btc_turtle_monitor.py` (BTC turtle-trading monitor):
the bounded price history, the breakout signal engine `generate_signal`,
the inline debounce / position update of `main_loop`, and the notification
call, together with theorems settling the specification claims.

Prices are modelled as rationals (the Python code only compares prices and
takes max / min over them, so any linear order is faithful); the position is
the integer 0 (FLAT) or 1 (LONG) exactly as in the source.
-/

set_option linter.unusedVariables false

namespace BtcTurtle

/-- Price samples; the source only ever compares them and folds max / min. -/
abbrev Price := ℚ

/-- Signals of the engine: buy = "BUY" = ENTER, sell = "SELL" = EXIT. -/
inductive Signal where
  | buy
  | sell
deriving DecidableEq, Repr

/-- Configuration constant `ENTRY_LOOKBACK` (N) from the source, default 20. -/
def ENTRY_LOOKBACK : ℕ := 20

/-- Configuration constant `EXIT_LOOKBACK` (M) from the source, default 10. -/
def EXIT_LOOKBACK : ℕ := 10

/-- Source line 14: `MIN_HISTORY = max(ENTRY_LOOKBACK, EXIT_LOOKBACK) + 1`,
generalised over the two lookbacks. -/
def MIN_HISTORY (N M : ℕ) : ℕ := max N M + 1

/-- History cap from source line 118 (`if len(prices) > 5000`); the spec
calls it `H_MAX`. -/
def H_MAX : ℕ := 5000

/-- Python slice `l[-(n+1):-1]` (source lines 59 and 61): the `n` samples
immediately preceding the last element.  Python clamps a negative start
index to 0, which ℕ subtraction reproduces. -/
def windowBeforeLast (l : List Price) (n : ℕ) : List Price :=
  l.dropLast.drop (l.length - (n + 1))

/-- Embedding of `generate_signal` (source lines 46-73), generalised over the
lookbacks N and M (the source fixes N = `ENTRY_LOOKBACK`, M = `EXIT_LOOKBACK`).
`position` is 0 (FLAT) or 1 (LONG).  The Option match mirrors Python taking
`prices[-1]`, `max(...)` and `min(...)` of the windows; under the length
guard (and with the source's positive lookbacks) all three are `some`, so
the fallthrough arm is unreachable, matching Python never raising there. -/
def generate_signal (N M : ℕ) (prices : List Price) (position : ℕ) : Option Signal :=
  if prices.length < MIN_HISTORY N M then
    none
  else
    match prices.getLast?, (windowBeforeLast prices N).max?,
        (windowBeforeLast prices M).min? with
    | some close, some recent_high, some recent_low =>
      if position = 0 ∧ close > recent_high then
        some Signal.buy
      else if position = 1 ∧ close < recent_low then
        some Signal.sell
      else
        none
    | _, _, _ => none

/-- Source lines 117-120: `prices.append(price)` followed by
`if len(prices) > 5000: prices.pop(0)` (pop of index 0 is `tail`). -/
def appendPrice (prices : List Price) (p : Price) : List Price :=
  let appended := prices ++ [p]
  if H_MAX < appended.length then appended.tail else appended

/-- Source lines 129-132: `if signal == "BUY": position = 1
elif signal == "SELL": position = 0`.  A total assignment: it never fails,
whatever the current position is. -/
def applySignal (position : ℕ) (s : Signal) : ℕ :=
  match s with
  | Signal.buy => 1
  | Signal.sell => 0

/-- Embedding of `send_signal_notification` (source lines 79-100): the
subprocess call may fail (`ok = false`), but the `except` branch catches
every failure and only logs it, so the function always returns normally and
touches no engine state.  The returned Bool is the delivery outcome. -/
def send_signal_notification (ok : Bool) : Bool := ok

/-- Debounce condition of source line 125,
`signal is not None and signal != last_signal`, as a function of the
candidate and the last emitted signal (the spec's `accept`). -/
def debounceAccept (candidate : Option Signal) (lastEmitted : Option Signal) : Bool :=
  candidate.isSome && candidate != lastEmitted

/-- Input of one iteration of `main_loop`: the result of `fetch_price`
(`none` models a failed retrieval, source lines 36-43) and the outcome of
the outbound notification subprocess. -/
structure TickInput where
  fetched : Option Price
  notifyOk : Bool

/-- State of `main_loop`: the globals `prices`, `position`, `last_signal`
(source lines 16-19), plus two ghost logs that record, without influencing
any update, the accepted signals and the notification outcomes. -/
structure LoopState where
  prices : List Price
  position : ℕ
  last_signal : Option Signal
  emitted : List Signal
  notifications : List (Signal × Bool)
deriving DecidableEq, Repr

/-- Initial state, source lines 16-19: empty history, FLAT, no signal yet. -/
def initState : LoopState :=
  { prices := [], position := 0, last_signal := none,
    emitted := [], notifications := [] }

/-- One iteration of `main_loop` (source lines 111-143): a failed fetch skips
the tick; otherwise append the price, evaluate the engine, and on a fresh
signal (line 125) update `last_signal` and `position` together and notify. -/
def mainStep (st : LoopState) (inp : TickInput) : LoopState :=
  match inp.fetched with
  | none => st
  | some price =>
    let prices' := appendPrice st.prices price
    match generate_signal ENTRY_LOOKBACK EXIT_LOOKBACK prices' st.position with
    | some s =>
      if some s ≠ st.last_signal then
        { prices := prices'
          position := applySignal st.position s
          last_signal := some s
          emitted := st.emitted ++ [s]
          notifications :=
            st.notifications ++ [(s, send_signal_notification inp.notifyOk)] }
      else
        { st with prices := prices' }
    | none => { st with prices := prices' }

/-- Running `main_loop` on a finite sequence of tick inputs. -/
def runLoop (inputs : List TickInput) : LoopState :=
  inputs.foldl mainStep initState

/-! ### Helper lemmas -/

instance : Std.Antisymm (fun a b : Price => a ≤ b) :=
  ⟨fun h1 h2 => le_antisymm h1 h2⟩

lemma rat_max?_eq_some_iff {xs : List Price} {a : Price} :
    xs.max? = some a ↔ a ∈ xs ∧ ∀ b ∈ xs, b ≤ a :=
  List.max?_eq_some_iff le_refl max_choice fun _ _ _ => max_le_iff

lemma rat_min?_eq_some_iff {xs : List Price} {a : Price} :
    xs.min? = some a ↔ a ∈ xs ∧ ∀ b, b ∈ xs → a ≤ b :=
  List.min?_eq_some_iff le_refl min_choice fun _ _ _ => le_min_iff

lemma windowBeforeLast_append (pre : List Price) (c : Price) (n : ℕ) :
    windowBeforeLast (pre ++ [c]) n = pre.drop (pre.length - n) := by
  have h1 : (pre ++ [c]).dropLast = pre := by simp
  have h2 : (pre ++ [c]).length - (n + 1) = pre.length - n := by simp
  simp [windowBeforeLast, h1, h2]

lemma windowBeforeLast_append_length {pre : List Price} {c : Price} {n : ℕ}
    (h : n ≤ pre.length) :
    (windowBeforeLast (pre ++ [c]) n).length = n := by
  rw [windowBeforeLast_append]
  simp; omega

lemma window_max_exists {pre : List Price} {n : ℕ} (h1 : 1 ≤ n)
    (h2 : n ≤ pre.length) :
    ∃ a, (pre.drop (pre.length - n)).max? = some a := by
  cases hx : (pre.drop (pre.length - n)).max? with
  | some a => exact ⟨a, rfl⟩
  | none =>
    have hnil := List.max?_eq_none_iff.mp hx
    have hlen : (pre.drop (pre.length - n)).length = n := by simp; omega
    rw [hnil] at hlen
    simp at hlen
    omega

lemma window_min_exists {pre : List Price} {n : ℕ} (h1 : 1 ≤ n)
    (h2 : n ≤ pre.length) :
    ∃ a, (pre.drop (pre.length - n)).min? = some a := by
  cases hx : (pre.drop (pre.length - n)).min? with
  | some a => exact ⟨a, rfl⟩
  | none =>
    have hnil := List.min?_eq_none_iff.mp hx
    have hlen : (pre.drop (pre.length - n)).length = n := by simp; omega
    rw [hnil] at hlen
    simp at hlen
    omega

lemma generate_signal_append_eq (N M : ℕ) (pre : List Price) (c : Price)
    (position : ℕ) (mh ml : Price)
    (hlen : max N M ≤ pre.length)
    (hmh : (pre.drop (pre.length - N)).max? = some mh)
    (hml : (pre.drop (pre.length - M)).min? = some ml) :
    generate_signal N M (pre ++ [c]) position =
      if position = 0 ∧ c > mh then some Signal.buy
      else if position = 1 ∧ c < ml then some Signal.sell
      else none := by
  have hguard : ¬ ((pre ++ [c]).length < MIN_HISTORY N M) := by
    simp only [MIN_HISTORY, List.length_append, List.length_singleton]
    omega
  unfold generate_signal
  rw [if_neg hguard, List.getLast?_concat, windowBeforeLast_append,
    windowBeforeLast_append, hmh, hml]

/-! ### C3: insufficient history -/

/-- C3: for every price history whose length is strictly below
`max(N, M) + 1`, `generate_signal` returns `none`, whatever the prices and
the current position are. -/
theorem C3_insufficient_history_none (N M : ℕ) (prices : List Price)
    (position : ℕ) (h : prices.length < MIN_HISTORY N M) :
    generate_signal N M prices position = none := by
  simp [generate_signal, h]

/-- Witness for C3 at a concrete short history. -/
theorem C3_insufficient_history_none_witness :
    generate_signal ENTRY_LOOKBACK EXIT_LOOKBACK [(1 : Price), 2, 3] 0 = none :=
  C3_insufficient_history_none ENTRY_LOOKBACK EXIT_LOOKBACK [(1 : Price), 2, 3] 0
    (by decide)

/-! ### C1: entry breakout -/

/-- C1: for a history `pre ++ [c]` of length at least `max(N, M) + 1`
(so `max N M ≤ pre.length`), if the close `c` strictly exceeds every one of
the N samples immediately preceding it and the position is FLAT (0), then
`generate_signal` returns BUY (ENTER); if instead `c` exactly equals the
maximum of that window (it is attained and is an upper bound), the result
is `none` — strict inequality, no signal on tie. -/
theorem C1_flat_breakout_enter (N M : ℕ) (pre : List Price) (c : Price)
    (hN : 1 ≤ N) (hM : 1 ≤ M) (hlen : max N M ≤ pre.length) :
    ((∀ x ∈ pre.drop (pre.length - N), x < c) →
      generate_signal N M (pre ++ [c]) 0 = some Signal.buy)
    ∧ (c ∈ pre.drop (pre.length - N) →
        (∀ x ∈ pre.drop (pre.length - N), x ≤ c) →
        generate_signal N M (pre ++ [c]) 0 = none) := by
  obtain ⟨mh, hmh⟩ := window_max_exists hN (le_trans (le_max_left N M) hlen)
  obtain ⟨ml, hml⟩ := window_min_exists hM (le_trans (le_max_right N M) hlen)
  have heq := generate_signal_append_eq N M pre c 0 mh ml hlen hmh hml
  obtain ⟨hmem, hub⟩ := rat_max?_eq_some_iff.mp hmh
  constructor
  · intro hstrict
    rw [heq]
    have hlt : mh < c := hstrict mh hmem
    simp [hlt]
  · intro hcmem hle
    rw [heq]
    have hcle : c ≤ mh := hub c hcmem
    simp [not_lt.mpr hcle]

/-- Witness for C1 at the spec's scenario: twenty samples at 10 then a
close of 11 fires BUY from FLAT, while a close of 10 (a tie with the
window maximum) yields no signal. -/
theorem C1_flat_breakout_enter_witness :
    generate_signal ENTRY_LOOKBACK EXIT_LOOKBACK
        (List.replicate 20 (10 : Price) ++ [11]) 0 = some Signal.buy
    ∧ generate_signal ENTRY_LOOKBACK EXIT_LOOKBACK
        (List.replicate 20 (10 : Price) ++ [10]) 0 = none := by
  constructor
  · exact (C1_flat_breakout_enter ENTRY_LOOKBACK EXIT_LOOKBACK
      (List.replicate 20 (10 : Price)) 11
      (by decide) (by decide) (by decide)).1 (by decide)
  · exact (C1_flat_breakout_enter ENTRY_LOOKBACK EXIT_LOOKBACK
      (List.replicate 20 (10 : Price)) 10
      (by decide) (by decide) (by decide)).2 (by decide) (by decide)

/-! ### C2: exit breakdown -/

/-- C2: for a history `pre ++ [c]` of length at least `max(N, M) + 1`, if
the close `c` strictly falls below every one of the M samples immediately
preceding it and the position is LONG (1), then `generate_signal` returns
SELL (EXIT); if instead `c` exactly equals the minimum of that window, the
result is `none`. -/
theorem C2_long_breakdown_exit (N M : ℕ) (pre : List Price) (c : Price)
    (hN : 1 ≤ N) (hM : 1 ≤ M) (hlen : max N M ≤ pre.length) :
    ((∀ x ∈ pre.drop (pre.length - M), c < x) →
      generate_signal N M (pre ++ [c]) 1 = some Signal.sell)
    ∧ (c ∈ pre.drop (pre.length - M) →
        (∀ x ∈ pre.drop (pre.length - M), c ≤ x) →
        generate_signal N M (pre ++ [c]) 1 = none) := by
  obtain ⟨mh, hmh⟩ := window_max_exists hN (le_trans (le_max_left N M) hlen)
  obtain ⟨ml, hml⟩ := window_min_exists hM (le_trans (le_max_right N M) hlen)
  have heq := generate_signal_append_eq N M pre c 1 mh ml hlen hmh hml
  obtain ⟨hmem, hlb⟩ := rat_min?_eq_some_iff.mp hml
  constructor
  · intro hstrict
    rw [heq]
    have hlt : c < ml := hstrict ml hmem
    simp [hlt]
  · intro hcmem hle
    rw [heq]
    have hcge : ml ≤ c := hlb c hcmem
    simp [not_lt.mpr hcge]

/-- Witness for C2 at the spec's scenario: twenty samples at 10 then,
while LONG, a close of 9 fires SELL, and a close of 10 (a tie with the
window minimum) yields no signal. -/
theorem C2_long_breakdown_exit_witness :
    generate_signal ENTRY_LOOKBACK EXIT_LOOKBACK
        (List.replicate 20 (10 : Price) ++ [9]) 1 = some Signal.sell
    ∧ generate_signal ENTRY_LOOKBACK EXIT_LOOKBACK
        (List.replicate 20 (10 : Price) ++ [10]) 1 = none := by
  constructor
  · exact (C2_long_breakdown_exit ENTRY_LOOKBACK EXIT_LOOKBACK
      (List.replicate 20 (10 : Price)) 9
      (by decide) (by decide) (by decide)).1 (by decide)
  · exact (C2_long_breakdown_exit ENTRY_LOOKBACK EXIT_LOOKBACK
      (List.replicate 20 (10 : Price)) 10
      (by decide) (by decide) (by decide)).2 (by decide) (by decide)

/-! ### C6: debouncer contract -/

/-- C6: the debounce condition accepts a candidate signal exactly when it
differs from the last emitted signal (including `none`); in particular a
repeated BUY is suppressed while SELL after BUY fires. -/
theorem C6_debounce_accept_iff :
    (∀ (c : Signal) (l : Option Signal),
        debounceAccept (some c) l = true ↔ some c ≠ l)
    ∧ debounceAccept (some Signal.buy) (some Signal.buy) = false
    ∧ debounceAccept (some Signal.sell) (some Signal.buy) = true := by
  refine ⟨fun c l => ?_, by decide, by decide⟩
  simp [debounceAccept]

/-! ### C4: bounded FIFO history -/

lemma appendPrice_eq (ps : List Price) (p : Price) :
    appendPrice ps p = (if H_MAX < ps.length + 1 then ps.tail else ps) ++ [p] := by
  simp only [appendPrice]
  by_cases h : H_MAX < (ps ++ [p]).length
  · rw [if_pos h, if_pos (by simpa using h)]
    cases ps with
    | nil => simp [H_MAX] at h
    | cons x t => simp
  · rw [if_neg h, if_neg (by simpa using h)]

lemma appendPrice_length_le {ps : List Price} (p : Price) (h : ps.length ≤ H_MAX) :
    (appendPrice ps p).length ≤ H_MAX := by
  rw [appendPrice_eq]
  by_cases hc : H_MAX < ps.length + 1
  · rw [if_pos hc]
    simp only [List.length_append, List.length_singleton, List.length_tail]
    simp only [H_MAX] at *
    omega
  · rw [if_neg hc]
    simp only [List.length_append, List.length_singleton]
    omega

lemma foldl_appendPrice_length_le (seq : List Price) :
    ∀ ps : List Price, ps.length ≤ H_MAX →
      (seq.foldl appendPrice ps).length ≤ H_MAX := by
  induction seq with
  | nil => intro ps h; simpa using h
  | cons q qs ih => intro ps h; exact ih _ (appendPrice_length_le q h)

/-- C4: the history never exceeds `H_MAX` after an append completes (both
for a single append from a compliant state and along every sequence of
appends from the empty history), and each append is exactly
`(tail when the cap would be exceeded, else unchanged) ++ [p]`: at most one
eviction per append, always the oldest sample, relative order of the
survivors preserved. -/
theorem C4_history_bounded_fifo :
    (∀ (ps : List Price) (p : Price), ps.length ≤ H_MAX →
        (appendPrice ps p).length ≤ H_MAX)
    ∧ (∀ (ps : List Price) (p : Price),
        appendPrice ps p = (if H_MAX < ps.length + 1 then ps.tail else ps) ++ [p])
    ∧ (∀ seq : List Price, (seq.foldl appendPrice []).length ≤ H_MAX) :=
  ⟨fun _ p h => appendPrice_length_le p h,
   appendPrice_eq,
   fun seq => foldl_appendPrice_length_le seq [] (by simp)⟩

/-- Witness for C4: a single append to the empty history respects the cap. -/
theorem C4_history_bounded_fifo_witness :
    (appendPrice [] (5 : Price)).length ≤ H_MAX :=
  C4_history_bounded_fifo.1 [] (5 : Price) (by decide)

/-! ### C5: illegal transitions are silently applied, not rejected -/

/-- C5 counterexample: the position update of source lines 129-132 is a
total assignment with no failure path.  Applying BUY (ENTER) while the
position is already 1 (LONG) returns 1 normally, and applying SELL (EXIT)
while 0 (FLAT) returns 0 normally — the code silently applies the
transition instead of failing with an IllegalTransition condition, so the
claim as stated is false at these concrete inputs. -/
theorem C5_illegal_transition_counterexample :
    applySignal 1 Signal.buy = 1 ∧ applySignal 0 Signal.sell = 0 := by
  constructor <;> rfl

/-- C5 amended: the position update silently sets the position to the
signal's target state whatever the current position is (no
IllegalTransition condition exists in the code); such illegal applications
can never arise through `main_loop`, because `generate_signal` only
returns BUY when the position is 0 and only returns SELL when it is 1. -/
theorem C5_silent_total_update_with_gating :
    (∀ position : ℕ,
        applySignal position Signal.buy = 1 ∧ applySignal position Signal.sell = 0)
    ∧ (∀ (N M : ℕ) (prices : List Price) (position : ℕ),
        (generate_signal N M prices position = some Signal.buy → position = 0)
        ∧ (generate_signal N M prices position = some Signal.sell → position = 1)) := by
  refine ⟨fun position => ⟨rfl, rfl⟩, fun N M prices position => ⟨?_, ?_⟩⟩
  all_goals
    intro h
    unfold generate_signal at h
    by_cases hg : prices.length < MIN_HISTORY N M
  · simp [hg] at h
  · rw [if_neg hg] at h
    cases h1 : prices.getLast? with
    | none => rw [h1] at h; simp at h
    | some close =>
      cases h2 : (windowBeforeLast prices N).max? with
      | none => rw [h1, h2] at h; simp at h
      | some rh =>
        cases h3 : (windowBeforeLast prices M).min? with
        | none => rw [h1, h2, h3] at h; simp at h
        | some rl =>
          rw [h1, h2, h3] at h
          dsimp only at h
          split_ifs at h with ha hb
          · exact ha.1
          · exact absurd h (by simp)
  · simp [hg] at h
  · rw [if_neg hg] at h
    cases h1 : prices.getLast? with
    | none => rw [h1] at h; simp at h
    | some close =>
      cases h2 : (windowBeforeLast prices N).max? with
      | none => rw [h1, h2] at h; simp at h
      | some rh =>
        cases h3 : (windowBeforeLast prices M).min? with
        | none => rw [h1, h2, h3] at h; simp at h
        | some rl =>
          rw [h1, h2, h3] at h
          dsimp only at h
          split_ifs at h with ha hb
          · exact absurd h (by simp)
          · exact hb.1

set_option maxRecDepth 8000 in
/-- Witness for C5's amended statement: the gating discharged at the BUY
scenario of the spec, together with a silent re-application. -/
theorem C5_silent_total_update_with_gating_witness :
    applySignal 1 Signal.buy = 1
    ∧ ((0 : ℕ) = 0) := by
  constructor
  · exact (C5_silent_total_update_with_gating.1 1).1
  · exact (C5_silent_total_update_with_gating.2 ENTRY_LOOKBACK EXIT_LOOKBACK
      (List.replicate 20 (10 : Price) ++ [11]) 0).1 (by decide)

/-! ### C8: fetch failure is a pure skip -/

/-- C8: a tick whose price retrieval fails leaves the whole loop state, in
particular `prices`, `position` and `last_signal`, exactly as it was. -/
theorem C8_fetch_failure_skips_tick (st : LoopState) (ok : Bool) :
    mainStep st { fetched := none, notifyOk := ok } = st := rfl

/-- Witness for C8 at the initial state. -/
theorem C8_fetch_failure_skips_tick_witness :
    mainStep initState { fetched := none, notifyOk := true } = initState :=
  C8_fetch_failure_skips_tick initState true

/-! ### C7: emitted signals never repeat consecutively -/

lemma mainStep_none_signal {st : LoopState} {price : Price} {ok : Bool}
    (hs : generate_signal ENTRY_LOOKBACK EXIT_LOOKBACK
        (appendPrice st.prices price) st.position = none) :
    mainStep st { fetched := some price, notifyOk := ok }
      = { st with prices := appendPrice st.prices price } := by
  simp only [mainStep]
  rw [hs]

lemma mainStep_some_accept {st : LoopState} {price : Price} {ok : Bool}
    {s : Signal}
    (hs : generate_signal ENTRY_LOOKBACK EXIT_LOOKBACK
        (appendPrice st.prices price) st.position = some s)
    (hne : some s ≠ st.last_signal) :
    mainStep st { fetched := some price, notifyOk := ok }
      = { prices := appendPrice st.prices price
          position := applySignal st.position s
          last_signal := some s
          emitted := st.emitted ++ [s]
          notifications :=
            st.notifications ++ [(s, send_signal_notification ok)] } := by
  simp only [mainStep]
  rw [hs]
  simp [hne]

lemma mainStep_some_reject {st : LoopState} {price : Price} {ok : Bool}
    {s : Signal}
    (hs : generate_signal ENTRY_LOOKBACK EXIT_LOOKBACK
        (appendPrice st.prices price) st.position = some s)
    (hne : ¬ some s ≠ st.last_signal) :
    mainStep st { fetched := some price, notifyOk := ok }
      = { st with prices := appendPrice st.prices price } := by
  simp only [mainStep]
  rw [hs]
  simp [hne]

/-- Invariant tying the debounce state to the ghost log of accepted
signals: `last_signal` is the last accepted signal, and no two consecutive
accepted signals are equal. -/
def DebounceInv (st : LoopState) : Prop :=
  st.last_signal = st.emitted.getLast?
  ∧ st.emitted.Chain' (fun a b => a ≠ b)

lemma debounceInv_init : DebounceInv initState := by
  constructor <;> simp [initState]

lemma debounceInv_step {st : LoopState} (inp : TickInput)
    (h : DebounceInv st) : DebounceInv (mainStep st inp) := by
  obtain ⟨f, ok⟩ := inp
  cases f with
  | none => exact h
  | some price =>
    cases hs : generate_signal ENTRY_LOOKBACK EXIT_LOOKBACK
        (appendPrice st.prices price) st.position with
    | none =>
      rw [mainStep_none_signal hs]
      exact h
    | some s =>
      by_cases hne : some s ≠ st.last_signal
      · rw [mainStep_some_accept hs hne]
        refine ⟨by simp, ?_⟩
        rw [List.chain'_append]
        refine ⟨h.2, List.chain'_singleton s, ?_⟩
        intro x hx y hy
        have hx' : st.emitted.getLast? = some x := hx
        have hy' : s = y := by simpa using hy
        intro hxy
        apply hne
        rw [h.1, hx']
        exact congrArg some (hy'.trans hxy.symm)
      · rw [mainStep_some_reject hs hne]
        exact h

lemma debounceInv_foldl (l : List TickInput) :
    ∀ st : LoopState, DebounceInv st → DebounceInv (l.foldl mainStep st) := by
  induction l with
  | nil => intro st h; exact h
  | cons i t ih => intro st h; exact ih _ (debounceInv_step i h)

/-- C7: along every execution of the loop from the initial state, the
sequence of accepted (emitted) signals contains no two equal consecutive
entries: each accepted BUY is followed, if at all, by SELL and conversely,
because `last_signal` is updated together with the position in the same
tick and a candidate equal to it is never accepted. -/
theorem C7_emitted_signals_alternate (inputs : List TickInput) :
    ((runLoop inputs).emitted).Chain' (fun a b => a ≠ b) :=
  (debounceInv_foldl inputs initState debounceInv_init).2

/-- Witness for C7 on a concrete two-tick run. -/
theorem C7_emitted_signals_alternate_witness :
    ((runLoop [{ fetched := some 1, notifyOk := true },
               { fetched := none, notifyOk := true }]).emitted).Chain'
      (fun a b => a ≠ b) :=
  C7_emitted_signals_alternate
    [{ fetched := some 1, notifyOk := true },
     { fetched := none, notifyOk := true }]

/-! ### C9: notification failure does not roll back state -/

/-- C9: the engine state after a tick is independent of the notification
outcome — `prices`, `position`, `last_signal` and the accepted-signal log
are the same whether delivery succeeds or fails — and on an accepted
signal the position and `last_signal` keep their post-transition values
for either outcome. -/
theorem C9_notify_failure_no_rollback :
    (∀ (st : LoopState) (f : Option Price) (ok : Bool),
        (mainStep st { fetched := f, notifyOk := ok }).prices
            = (mainStep st { fetched := f, notifyOk := true }).prices
        ∧ (mainStep st { fetched := f, notifyOk := ok }).position
            = (mainStep st { fetched := f, notifyOk := true }).position
        ∧ (mainStep st { fetched := f, notifyOk := ok }).last_signal
            = (mainStep st { fetched := f, notifyOk := true }).last_signal
        ∧ (mainStep st { fetched := f, notifyOk := ok }).emitted
            = (mainStep st { fetched := f, notifyOk := true }).emitted)
    ∧ (∀ (st : LoopState) (p : Price) (ok : Bool) (s : Signal),
        generate_signal ENTRY_LOOKBACK EXIT_LOOKBACK
            (appendPrice st.prices p) st.position = some s →
        some s ≠ st.last_signal →
        (mainStep st { fetched := some p, notifyOk := ok }).position
            = applySignal st.position s
        ∧ (mainStep st { fetched := some p, notifyOk := ok }).last_signal
            = some s) := by
  constructor
  · intro st f ok
    cases f with
    | none => exact ⟨rfl, rfl, rfl, rfl⟩
    | some price =>
      cases hs : generate_signal ENTRY_LOOKBACK EXIT_LOOKBACK
          (appendPrice st.prices price) st.position with
      | none =>
        rw [mainStep_none_signal hs, mainStep_none_signal hs]
        exact ⟨rfl, rfl, rfl, rfl⟩
      | some s =>
        by_cases hne : some s ≠ st.last_signal
        · rw [mainStep_some_accept hs hne, mainStep_some_accept hs hne]
          exact ⟨rfl, rfl, rfl, rfl⟩
        · rw [mainStep_some_reject hs hne, mainStep_some_reject hs hne]
          exact ⟨rfl, rfl, rfl, rfl⟩
  · intro st p ok s hs hne
    rw [mainStep_some_accept hs hne]
    exact ⟨rfl, rfl⟩

/-- Concrete state used by witnesses: twenty samples at price 10, FLAT,
nothing emitted yet. -/
def witnessState : LoopState :=
  { prices := List.replicate 20 (10 : Price), position := 0,
    last_signal := none, emitted := [], notifications := [] }

set_option maxRecDepth 8000 in
/-- Witness for C9: the tick that fetches 11 from `witnessState` fires BUY,
and even with a failed notification the position is 1 and `last_signal` is
BUY afterwards. -/
theorem C9_notify_failure_no_rollback_witness :
    (mainStep witnessState { fetched := some 11, notifyOk := false }).position
        = applySignal witnessState.position Signal.buy
    ∧ (mainStep witnessState { fetched := some 11, notifyOk := false }).last_signal
        = some Signal.buy :=
  C9_notify_failure_no_rollback.2 witnessState 11 false Signal.buy
    (by decide) (by decide)

/-! ### C10: position matches the last emitted signal -/

/-- Invariant of the claim: the position is 1 (LONG) exactly when the last
emitted signal is BUY, and 0 (FLAT) exactly when it is SELL or `none`. -/
def PositionSignalInv (st : LoopState) : Prop :=
  (st.position = 1 ↔ st.last_signal = some Signal.buy)
  ∧ (st.position = 0 ↔
      (st.last_signal = some Signal.sell ∨ st.last_signal = none))

lemma positionSignalInv_init : PositionSignalInv initState := by
  constructor <;> simp [initState]

lemma positionSignalInv_step {st : LoopState} (inp : TickInput)
    (h : PositionSignalInv st) : PositionSignalInv (mainStep st inp) := by
  obtain ⟨f, ok⟩ := inp
  cases f with
  | none => exact h
  | some price =>
    cases hs : generate_signal ENTRY_LOOKBACK EXIT_LOOKBACK
        (appendPrice st.prices price) st.position with
    | none =>
      rw [mainStep_none_signal hs]
      exact h
    | some s =>
      by_cases hne : some s ≠ st.last_signal
      · rw [mainStep_some_accept hs hne]
        cases s <;> simp [PositionSignalInv, applySignal]
      · rw [mainStep_some_reject hs hne]
        exact h

lemma positionSignalInv_foldl (l : List TickInput) :
    ∀ st : LoopState, PositionSignalInv st →
      PositionSignalInv (l.foldl mainStep st) := by
  induction l with
  | nil => intro st h; exact h
  | cons i t ih => intro st h; exact ih _ (positionSignalInv_step i h)

/-- C10: at the initial state and after every sequence of per-tick updates,
the position is 1 (LONG) if and only if the last emitted signal is BUY, and
0 (FLAT) exactly when the last emitted signal is SELL or no signal has
fired yet. -/
theorem C10_position_iff_last_signal :
    PositionSignalInv initState
    ∧ ∀ inputs : List TickInput,
        ((runLoop inputs).position = 1
            ↔ (runLoop inputs).last_signal = some Signal.buy)
        ∧ ((runLoop inputs).position = 0
            ↔ ((runLoop inputs).last_signal = some Signal.sell
                ∨ (runLoop inputs).last_signal = none)) :=
  ⟨positionSignalInv_init,
   fun inputs => positionSignalInv_foldl inputs initState positionSignalInv_init⟩

/-- Witness for C10 on the empty run. -/
theorem C10_position_iff_last_signal_witness :
    ((runLoop []).position = 1
        ↔ (runLoop []).last_signal = some Signal.buy)
    ∧ ((runLoop []).position = 0
        ↔ ((runLoop []).last_signal = some Signal.sell
            ∨ (runLoop []).last_signal = none)) :=
  C10_position_iff_last_signal.2 []

end BtcTurtle
